import Mathlib

/-!
Verification development for the 12Caster signaling hub and mesh client

Shallow embedding of the WebSocket signaling server (`server/index.ts`) and of
the relevant parts of the browser client (`client/src/hooks/useWebSocket.ts`).

The server keeps four JS `Map`s (`clients`, `connectedUsers`, `userAudioStates`,
`userVideoStates`) plus the implicit set `wss.clients` of open sockets, and
reacts to connection / message / close events.  We embed JS `Map`s as
association lists with `Map.set` / `Map.get` / `Map.delete` operations that
mirror the JS semantics (`set` updates in place keeping insertion order,
`delete` removes the entry), sockets as natural-number channel handles, and the
event loop as a pure step function `HubState → Event → HubState × outputs`,
where an output `(c, m)` records that message `m` was written to channel `c`.

Two sources of nondeterminism in the original code are turned into explicit
inputs of the step function: the value returned by `Math.random`-based
`generateUserId()` travels inside the `set_username` event, and `Date.now()`
travels as the `now` field of each event.
-/

set_option maxRecDepth 8192

namespace Caster

/-- JS `Map.get` on a map represented as an association list
(first binding for the key wins; JS maps never hold duplicate keys). -/
def mGet {α : Type} [DecidableEq α] {β : Type} (k : α) : List (α × β) → Option β
  | [] => none
  | (k', v) :: rest => if k' = k then some v else mGet k rest

/-- JS `Map.set`: update the binding in place if the key is present (JS keeps the
original insertion position), otherwise append the new binding. -/
def mSet {α : Type} [DecidableEq α] {β : Type} (k : α) (v : β) :
    List (α × β) → List (α × β)
  | [] => [(k, v)]
  | (k', v') :: rest => if k' = k then (k, v) :: rest else (k', v') :: mSet k v rest

/-- JS `Map.delete`: remove the binding for the key.  Since maps built by `mSet`
never hold duplicate keys, filtering the key out is the same operation. -/
def mDel {α : Type} [DecidableEq α] {β : Type} (k : α) (l : List (α × β)) :
    List (α × β) :=
  l.filter (fun kv => !decide (kv.1 = k))

/-- Value stored in the server's `clients : Map<WebSocket, {username, userId}>`. -/
structure ClientInfo where
  username : String
  userId : String
deriving DecidableEq

/-- Value stored in `connectedUsers : Map<string, ConnectedUser>`; the `ws`
field of the source record is embedded as the channel handle `ch`. -/
structure Peer where
  userId : String
  username : String
  ch : Nat
deriving DecidableEq

/-- Kind of a WebRTC signaling envelope (`webrtc_offer` / `webrtc_answer` /
`webrtc_ice_candidate`). -/
inductive SigType
  | offer
  | answer
  | iceCandidate
deriving DecidableEq

/-- Messages the hub writes to channels.  `userList` carries
`(userId, username)` pairs, `audioStates` / `videoStates` carry
`(userId, enabled)` pairs (in the source the map value repeats the key as its
`userId` field, so the pair is the faithful content). -/
inductive SMsg
  | error (message : String)
  | requestUsername
  | userList (users : List (String × String))
  | usernameAccepted (username : String) (userId : String)
  | system (message : String) (timestamp : Nat)
  | chat (username : String) (text : String) (timestamp : Nat)
  | audioStates (states : List (String × Bool))
  | videoStates (states : List (String × Bool))
  | signal (typ : SigType) (targetUserId : String) (payload : String)
      (senderUserId : String) (senderUsername : String)
deriving DecidableEq

/-- Client-to-hub payloads after `JSON.parse`.  `setUsername` carries the
string the `Math.random`-based `generateUserId()` returns for this call (the
generator's output is an input of the model).  `chat`'s `text` is `none` when
the field is absent (`data.text || ''`).  `webrtc` keeps the client-supplied
`senderUserId` / `senderUsername` fields, if any, to state that the hub
ignores them.  `badJson` is an unparsable frame, `unknown` any other type. -/
inductive CMsg
  | setUsername (username : String) (genId : String)
  | chat (text : Option String)
  | audioEnabled
  | audioDisabled
  | videoEnabled
  | videoDisabled
  | webrtc (typ : SigType) (targetUserId : String) (payload : String)
      (senderUserId : Option String) (senderUsername : Option String)
  | badJson
  | unknown
deriving DecidableEq

/-- Events the hub's event loop processes, in arrival order.  `now` is the
value `Date.now()` returns while the handler runs. -/
inductive Event
  | connect (ch : Nat)
  | message (ch : Nat) (now : Nat) (data : CMsg)
  | close (ch : Nat) (now : Nat)
deriving DecidableEq

/-- The server's mutable state: `wss.clients` (open sockets, insertion order)
and the four global maps. -/
structure HubState where
  openChannels : List Nat
  clients : List (Nat × ClientInfo)
  connectedUsers : List (String × Peer)
  userAudioStates : List (String × Bool)
  userVideoStates : List (String × Bool)
deriving DecidableEq

/-- The `MAX_CLIENTS` constant from server/index.ts line 85. -/
def MAX_CLIENTS : Nat := 200

/-- JS `String.prototype.trim`: strip whitespace from both ends. -/
def jsTrim (s : String) : String :=
  ⟨((s.data.dropWhile Char.isWhitespace).reverse.dropWhile Char.isWhitespace).reverse⟩

/-- Initial server state: no sockets, all maps empty. -/
def hubInit : HubState :=
  { openChannels := [], clients := [], connectedUsers := [],
    userAudioStates := [], userVideoStates := [] }

/-- Source `broadcast(msg)`: send to every open client (insertion order of
`wss.clients`). -/
def bAll (chans : List Nat) (m : SMsg) : List (Nat × SMsg) :=
  chans.map (fun c => (c, m))

/-- Source `broadcast(msg, exceptWs)`: send to every open client other than the
excluded one. -/
def bExcept (chans : List Nat) (ex : Nat) (m : SMsg) : List (Nat × SMsg) :=
  bAll (chans.filter (fun c => c != ex)) m

/-- Source `sendToClient`: send only if the socket is open. -/
def sendTo (chans : List Nat) (ch : Nat) (m : SMsg) : List (Nat × SMsg) :=
  if ch ∈ chans then [(ch, m)] else []

/-- The `user_list` payload: `Array.from(connectedUsers.values())` projected to
`{userId, username}`. -/
def userEntries (cu : List (String × Peer)) : List (String × String) :=
  cu.map (fun kv => (kv.2.userId, kv.2.username))

/-- The connection handler `wss.on('connection')`, lines 143–164: the freshly added socket makes
`wss.clients.size = |open| + 1`; if that exceeds `MAX_CLIENTS` the hub sends
an error and closes the socket (it is never registered and its message
handlers are never attached); otherwise the socket is admitted and receives
`request_username` plus the current user list. -/
def onConnect (s : HubState) (ch : Nat) : HubState × List (Nat × SMsg) :=
  if s.openChannels.length + 1 > MAX_CLIENTS then
    (s, [(ch, SMsg.error "Server full. Try again later.")])
  else
    ({ s with openChannels := s.openChannels ++ [ch] },
     [(ch, SMsg.requestUsername),
      (ch, SMsg.userList (userEntries s.connectedUsers))])

/-- The `set_username` handler, lines 176–214.  On a nonempty trimmed
username: store the trimmed name with the generated id in `clients` and
`connectedUsers`, reply `username_accepted` to the joiner, broadcast the join
notice to everyone else, then broadcast the user list and both media-state
lists to everyone.  Otherwise reply `error "Invalid username"`. -/
def onSetUsername (s : HubState) (ch : Nat) (now : Nat) (name gen : String) :
    HubState × List (Nat × SMsg) :=
  if 0 < (jsTrim name).length then
    let username := jsTrim name
    let clients' := mSet ch { username := username, userId := gen } s.clients
    let cu' := mSet gen { userId := gen, username := username, ch := ch } s.connectedUsers
    let s' := { s with clients := clients', connectedUsers := cu' }
    (s',
     sendTo s'.openChannels ch (SMsg.usernameAccepted username gen)
       ++ bExcept s'.openChannels ch
            (SMsg.system (username ++ " joined the chat.") now)
       ++ bAll s'.openChannels (SMsg.userList (userEntries cu'))
       ++ bAll s'.openChannels (SMsg.audioStates s'.userAudioStates)
       ++ bAll s'.openChannels (SMsg.videoStates s'.userVideoStates))
  else
    (s, sendTo s.openChannels ch (SMsg.error "Invalid username"))

/-- The `chat` handler, lines 216–229: look the sender up in `clients`,
falling back to `{username: 'Anonymous', userId: ''}`, and broadcast the
server-stamped chat message to all open channels (sender included). -/
def onChat (s : HubState) (ch : Nat) (now : Nat) (txt : Option String) :
    HubState × List (Nat × SMsg) :=
  let info := (mGet ch s.clients).getD { username := "Anonymous", userId := "" }
  (s, bAll s.openChannels (SMsg.chat info.username (txt.getD "") now))

/-- The `audio_enabled` / `audio_disabled` handlers, lines 231–253: only for
registered channels, update the sender's audio flag and broadcast the full
audio-state list. -/
def onAudioToggle (s : HubState) (ch : Nat) (enabled : Bool) :
    HubState × List (Nat × SMsg) :=
  match mGet ch s.clients with
  | some info =>
      let s' := { s with userAudioStates := mSet info.userId enabled s.userAudioStates }
      (s', bAll s'.openChannels (SMsg.audioStates s'.userAudioStates))
  | none => (s, [])

/-- The `video_enabled` / `video_disabled` handlers, lines 255–277. -/
def onVideoToggle (s : HubState) (ch : Nat) (enabled : Bool) :
    HubState × List (Nat × SMsg) :=
  match mGet ch s.clients with
  | some info =>
      let s' := { s with userVideoStates := mSet info.userId enabled s.userVideoStates }
      (s', bAll s'.openChannels (SMsg.videoStates s'.userVideoStates))
  | none => (s, [])

/-- The WebRTC signaling relay, lines 280–299: look up the target in
`connectedUsers`; if present and its socket is open, and the sender is
registered, forward `{...data, senderUserId, senderUsername}` — the spread
plus the two explicit fields overwrite any client-supplied sender identity,
which is why the forwarded message carries only the hub-registered identity.
In every other case nothing is sent. -/
def onWebrtc (s : HubState) (ch : Nat) (typ : SigType) (tgt payload : String)
    (csUid csUname : Option String) : HubState × List (Nat × SMsg) :=
  match mGet tgt s.connectedUsers with
  | some targetUser =>
      if targetUser.ch ∈ s.openChannels then
        match mGet ch s.clients with
        | some senderInfo =>
            (s, [(targetUser.ch,
                  SMsg.signal typ tgt payload senderInfo.userId senderInfo.username)])
        | none => (s, [])
      else (s, [])
  | none => (s, [])

/-- The close handler `ws.on('close')`, lines 303–331: the closing socket leaves `wss.clients`;
if it was registered, broadcast the depart notice (the source broadcast
excludes the closing socket, which has left the open set anyway), delete its
registry and media-state entries, and broadcast the refreshed user list and
media-state lists; finally drop its `clients` entry. -/
def onClose (s : HubState) (ch : Nat) (now : Nat) : HubState × List (Nat × SMsg) :=
  let chans := s.openChannels.filter (fun c => c != ch)
  match mGet ch s.clients with
  | some info =>
      let cu' := mDel info.userId s.connectedUsers
      let audio' := mDel info.userId s.userAudioStates
      let video' := mDel info.userId s.userVideoStates
      ({ openChannels := chans, clients := mDel ch s.clients,
         connectedUsers := cu', userAudioStates := audio',
         userVideoStates := video' },
       bAll chans (SMsg.system (info.username ++ " left the chat.") now)
         ++ bAll chans (SMsg.userList (userEntries cu'))
         ++ bAll chans (SMsg.audioStates audio')
         ++ bAll chans (SMsg.videoStates video'))
  | none =>
      ({ s with openChannels := chans, clients := mDel ch s.clients }, [])

/-- One iteration of the hub's event loop.  Message events are only delivered
for currently open channels: the server attaches the `message` handler after
admission (a rejected socket returns before the handler is installed) and a
closed socket emits no further messages. -/
def step (s : HubState) (e : Event) : HubState × List (Nat × SMsg) :=
  match e with
  | Event.connect ch => onConnect s ch
  | Event.message ch now d =>
      if ch ∈ s.openChannels then
        match d with
        | CMsg.setUsername name gen => onSetUsername s ch now name gen
        | CMsg.chat txt => onChat s ch now txt
        | CMsg.audioEnabled => onAudioToggle s ch true
        | CMsg.audioDisabled => onAudioToggle s ch false
        | CMsg.videoEnabled => onVideoToggle s ch true
        | CMsg.videoDisabled => onVideoToggle s ch false
        | CMsg.webrtc typ tgt payload csUid csUname =>
            onWebrtc s ch typ tgt payload csUid csUname
        | CMsg.badJson => (s, sendTo s.openChannels ch (SMsg.error "Invalid JSON"))
        | CMsg.unknown => (s, [])
      else (s, [])
  | Event.close ch now => onClose s ch now

/-- Run the hub from a state through a list of events. -/
def run : HubState → List Event → HubState
  | s, [] => s
  | s, e :: rest => run (step s e).1 rest

/-- The channels of the registry's records: each `connectedUsers` entry
identifies a channel through its `ch` field. -/
def registryChannels (s : HubState) : List Nat :=
  s.connectedUsers.map (fun kv => kv.2.ch)

/-- Insert a channel into an observation set if absent. -/
def insertNew (ch : Nat) (l : List Nat) : List Nat :=
  if ch ∈ l then l else l ++ [ch]

/-- Observer bookkeeping for claim C1: how one event updates the set of
channels that have completed the join handshake (the `set_username` success
branch ran, i.e. the channel was open and the trimmed name nonempty) and have
not since disconnected. -/
def joinedStep (s : HubState) (e : Event) (acc : List Nat) : List Nat :=
  match e with
  | Event.message ch _ (CMsg.setUsername name _) =>
      if ch ∈ s.openChannels ∧ 0 < (jsTrim name).length then insertNew ch acc else acc
  | Event.close ch _ => acc.filter (fun c => c != ch)
  | _ => acc

/-- The handshake-completed-and-still-connected channel set after a trace. -/
def joinedAfter : HubState → List Event → List Nat → List Nat
  | _, [], acc => acc
  | s, e :: rest, acc => joinedAfter (step s e).1 rest (joinedStep s e acc)

/-- Well-formedness of one event against the current state, for the amended
C1 invariant: a `set_username` only arrives on a channel that has not already
completed the handshake, and the id generator never returns an id that is
already registered. -/
def WFe (s : HubState) : Event → Bool
  | Event.message ch _ (CMsg.setUsername _ gen) =>
      (mGet ch s.clients).isNone && (mGet gen s.connectedUsers).isNone
  | _ => true

/-- Well-formedness of a whole trace from a state. -/
def WFb : HubState → List Event → Bool
  | _, [] => true
  | s, e :: rest => WFe s e && WFb (step s e).1 rest

/-- Inductive invariant tying the hub state to the observer's joined set:
every Registry record points back to a `clients` binding for its channel with
the same identity; every `clients` binding points to the Registry record for
its id on this channel; the joined set is exactly the domain of `clients`;
and the Registry's keys are duplicate-free. -/
def Inv (s : HubState) (acc : List Nat) : Prop :=
  (∀ uid p, mGet uid s.connectedUsers = some p →
      p.userId = uid
        ∧ mGet p.ch s.clients = some { username := p.username, userId := uid })
    ∧ (∀ ch info, mGet ch s.clients = some info →
        mGet info.userId s.connectedUsers
          = some { userId := info.userId, username := info.username, ch := ch })
    ∧ (∀ ch, ch ∈ acc ↔ (mGet ch s.clients).isSome = true)
    ∧ (s.connectedUsers.map Prod.fst).Nodup

/-!
Client-side mesh controller and reconnection handler

From `client/src/hooks/useWebSocket.ts`.  The per-peer table `peersRef` is
embedded as the list of remote user ids it holds (paired with their
usernames where needed).
-/

/-- A `{userId, username}` entry of a received `user_list`. -/
structure RemoteUser where
  userId : String
  username : String
deriving DecidableEq

/-- From `createPeerConnections` (lines 206–225): a new Link is created for a
listed user exactly when its id differs from our own and no Link for it is
already held. -/
def createsLink (selfId : String) (peerIds : List String) (u : RemoteUser) : Bool :=
  u.userId != selfId && !(peerIds.contains u.userId)

/-- The client initiates an offer toward a listed user exactly when it
creates a Link for it and its own id is assigned (`userIdRef.current` truthy;
the id is `''` before `username_accepted`).  Both the `createPeerConnections`
path (line 215) and the `createPeerConnection` path (line 314) fire
`initiateCall` only under this condition. -/
def initiatesCall (selfId : String) (peerIds : List String) (u : RemoteUser) : Bool :=
  createsLink selfId peerIds u && selfId != ""

/-- A retry scheduled by `handleConnectionFailure` via `setTimeout`. -/
structure RetryTask where
  delayMs : Nat
  userId : String
  username : String
deriving DecidableEq

/-- From `handleConnectionFailure` (lines 389–407): close and drop the old Link for
the remote id, then unconditionally schedule recreation plus a fresh offer
after a fixed 1000 ms delay.  The function has no retry counter, no backoff
and no terminal state: every failure produces exactly this action. -/
def handleConnectionFailure (peers : List (String × String))
    (userId username : String) : List (String × String) × RetryTask :=
  (mDel userId peers, { delayMs := 1000, userId := userId, username := username })

/-- The scheduled retry firing: `createPeerConnection` re-adds the Link (and
`initiateCall` starts a new offer). -/
def retryFires (peers : List (String × String)) (t : RetryTask) :
    List (String × String) :=
  mSet t.userId t.username peers

/-- Model of `n` consecutive connection failures of the same remote peer, each retry
firing before the next failure; returns the retry task scheduled by the last
failure (`none` when there was no failure at all). -/
def superviseN : Nat → List (String × String) → String → String → Option RetryTask
  | 0, _, _, _ => none
  | 1, ps, uid, un => some (handleConnectionFailure ps uid un).2
  | Nat.succ (Nat.succ n), ps, uid, un =>
      let r := handleConnectionFailure ps uid un
      superviseN (Nat.succ n) (retryFires r.1 r.2) uid un

/-!
Observation helpers
-/

/-- The stream of messages a given channel receives from an output list, in
emission order. -/
def sentTo (c : Nat) (out : List (Nat × SMsg)) : List SMsg :=
  (out.filter (fun p => p.1 == c)).map (fun p => p.2)

/-- Whether a hub message carries the given peer id in one of its id-bearing
fields. -/
def mentionsId (uid : String) : SMsg → Bool
  | SMsg.usernameAccepted _ u => u == uid
  | SMsg.userList users => users.any (fun e => e.1 == uid)
  | SMsg.audioStates states => states.any (fun e => e.1 == uid)
  | SMsg.videoStates states => states.any (fun e => e.1 == uid)
  | SMsg.signal _ tgt _ sUid _ => tgt == uid || sUid == uid
  | _ => false

/-- Whether a hub message is a `user_list` broadcast. -/
def isUserList : SMsg → Bool
  | SMsg.userList _ => true
  | _ => false

/-- The messages a channel receives strictly before the first `user_list`. -/
def beforeFirstUserList (msgs : List SMsg) : List SMsg :=
  msgs.takeWhile (fun m => !isUserList m)

/-!
Concrete fixtures for counterexamples and witnesses
-/

/-- A channel joins twice (two completed handshakes with distinct generated
ids) and then disconnects. -/
def rejoinTrace : List Event :=
  [Event.connect 0,
   Event.message 0 1 (CMsg.setUsername "alice" "i1"),
   Event.message 0 2 (CMsg.setUsername "alice" "i2"),
   Event.close 0 3]

/-- A well-formed trace: two channels join once each, the first disconnects. -/
def okTrace : List Event :=
  [Event.connect 0,
   Event.message 0 1 (CMsg.setUsername "alice" "a1"),
   Event.connect 1,
   Event.message 1 2 (CMsg.setUsername "bob" "b1"),
   Event.close 0 3]

/-- 200 open channels, none of which has completed the join handshake. -/
def s200open : HubState :=
  { openChannels := List.range 200, clients := [], connectedUsers := [],
    userAudioStates := [], userVideoStates := [] }

/-- 200 open channels, all registered: channel `i` holds peer id `toString i`. -/
def s200full : HubState :=
  { openChannels := List.range 200,
    clients := (List.range 200).map
      (fun i => (i, { username := toString i, userId := toString i })),
    connectedUsers := (List.range 200).map
      (fun i => (toString i, { userId := toString i, username := toString i, ch := i })),
    userAudioStates := [], userVideoStates := [] }

/-- Two registered channels: 0 is "alice" with id "a", 1 is "bob" with id "b". -/
def sPair : HubState :=
  { openChannels := [0, 1],
    clients := [(0, { username := "alice", userId := "a" }),
                (1, { username := "bob", userId := "b" })],
    connectedUsers := [("a", { userId := "a", username := "alice", ch := 0 }),
                       ("b", { userId := "b", username := "bob", ch := 1 })],
    userAudioStates := [("a", true)], userVideoStates := [("b", false)] }

/-- Like `sPair`, but channel 1 has connected without completing the join
handshake. -/
def sHalf : HubState :=
  { openChannels := [0, 1],
    clients := [(0, { username := "alice", userId := "a" })],
    connectedUsers := [("a", { userId := "a", username := "alice", ch := 0 })],
    userAudioStates := [], userVideoStates := [] }

/-!
Association-list map lemmas
-/

/-- Reading back the key just written. -/
theorem mGet_mSet_self {α β : Type} [DecidableEq α] (k : α) (v : β)
    (l : List (α × β)) : mGet k (mSet k v l) = some v := by
  induction l with
  | nil => simp [mGet, mSet]
  | cons kv rest ih =>
      obtain ⟨k', v'⟩ := kv
      by_cases h : k' = k
      · subst h; simp [mSet, mGet]
      · simp [mSet, h, mGet, ih]

/-- Writing one key does not change another key's binding. -/
theorem mGet_mSet_ne {α β : Type} [DecidableEq α] {k' k : α} (h : k' ≠ k)
    (v : β) (l : List (α × β)) : mGet k' (mSet k v l) = mGet k' l := by
  induction l with
  | nil => simp [mGet, mSet, Ne.symm h]
  | cons kv rest ih =>
      obtain ⟨a, b⟩ := kv
      by_cases ha : a = k
      · subst ha; simp [mSet, mGet, Ne.symm h]
      · simp [mSet, ha, mGet, ih]

/-- Deleting a key removes its binding. -/
theorem mGet_mDel_self {α β : Type} [DecidableEq α] (k : α) (l : List (α × β)) :
    mGet k (mDel k l) = none := by
  induction l with
  | nil => simp [mGet, mDel]
  | cons kv rest ih =>
      obtain ⟨a, b⟩ := kv
      by_cases ha : a = k
      · simpa [mDel, List.filter_cons, ha] using ih
      · simpa [mDel, List.filter_cons, ha, mGet] using ih

/-- Deleting one key does not change another key's binding. -/
theorem mGet_mDel_ne {α β : Type} [DecidableEq α] {k' k : α} (h : k' ≠ k)
    (l : List (α × β)) : mGet k' (mDel k l) = mGet k' l := by
  induction l with
  | nil => simp [mGet, mDel]
  | cons kv rest ih =>
      obtain ⟨a, b⟩ := kv
      by_cases ha : a = k
      · subst ha; simpa [mDel, List.filter_cons, mGet, Ne.symm h] using ih
      · by_cases hk' : a = k'
        · subst hk'; simp [mDel, List.filter_cons, ha, mGet]
        · simpa [mDel, List.filter_cons, ha, mGet, hk'] using ih

/-- A successful lookup exhibits a list member. -/
theorem mem_of_mGet_eq_some {α β : Type} [DecidableEq α] {k : α} {v : β}
    {l : List (α × β)} (h : mGet k l = some v) : (k, v) ∈ l := by
  induction l with
  | nil => simp [mGet] at h
  | cons kv rest ih =>
      obtain ⟨a, b⟩ := kv
      by_cases ha : a = k
      · subst ha
        simp [mGet] at h
        simp [h]
      · simp [mGet, ha] at h
        exact List.mem_cons_of_mem _ (ih h)

/-- With duplicate-free keys, membership determines the lookup. -/
theorem mGet_of_mem_nodup {α β : Type} [DecidableEq α] {k : α} {v : β}
    {l : List (α × β)} (hnd : (l.map Prod.fst).Nodup) (h : (k, v) ∈ l) :
    mGet k l = some v := by
  induction l with
  | nil => simp at h
  | cons kv rest ih =>
      obtain ⟨a, b⟩ := kv
      simp only [List.map_cons, List.nodup_cons] at hnd
      rcases List.mem_cons.mp h with heq | hmem
      · cases heq; simp [mGet]
      · by_cases ha : a = k
        · subst ha
          exact absurd (List.mem_map_of_mem Prod.fst hmem) hnd.1
        · simpa [mGet, ha] using ih hnd.2 hmem

/-- Membership yields a successful lookup. -/
theorem mGet_isSome_of_mem {α β : Type} [DecidableEq α] {k : α} {v : β}
    {l : List (α × β)} (h : (k, v) ∈ l) : (mGet k l).isSome := by
  induction l with
  | nil => simp at h
  | cons kv rest ih =>
      obtain ⟨a, b⟩ := kv
      by_cases ha : a = k
      · simp [mGet, ha]
      · rcases List.mem_cons.mp h with heq | hmem
        · cases heq; simp at ha
        · simpa [mGet, ha] using ih hmem

/-- A key with no binding is not among the keys. -/
theorem not_mem_keys_of_mGet_none {α β : Type} [DecidableEq α] {k : α}
    {l : List (α × β)} (h : mGet k l = none) : k ∉ l.map Prod.fst := by
  intro hmem
  rcases List.mem_map.mp hmem with ⟨⟨a, b⟩, hab, hk⟩
  simp only at hk
  subst hk
  have hsome : (mGet a l).isSome := mGet_isSome_of_mem hab
  rw [h] at hsome
  simp at hsome

/-- Setting an absent key appends the binding. -/
theorem mSet_eq_append {α β : Type} [DecidableEq α] {k : α} {l : List (α × β)}
    (h : mGet k l = none) (v : β) : mSet k v l = l ++ [(k, v)] := by
  induction l with
  | nil => simp [mSet]
  | cons kv rest ih =>
      obtain ⟨a, b⟩ := kv
      by_cases ha : a = k
      · subst ha; simp [mGet] at h
      · simp [mGet, ha] at h
        simp [mSet, ha, ih h]

/-- Overwriting a present key keeps the map's size. -/
theorem mSet_length_of_isSome {α β : Type} [DecidableEq α] {k : α}
    {l : List (α × β)} (h : (mGet k l).isSome) (v : β) :
    (mSet k v l).length = l.length := by
  induction l with
  | nil => simp [mGet] at h
  | cons kv rest ih =>
      obtain ⟨a, b⟩ := kv
      by_cases ha : a = k
      · subst ha; simp [mSet]
      · simp [mGet, ha] at h
        simp [mSet, ha, ih h]

/-- Deletion preserves duplicate-freedom of the keys. -/
theorem keys_nodup_mDel {α β : Type} [DecidableEq α] (k : α)
    {l : List (α × β)} (hnd : (l.map Prod.fst).Nodup) :
    ((mDel k l).map Prod.fst).Nodup :=
  List.Nodup.sublist (List.Sublist.map Prod.fst (List.filter_sublist l)) hnd

/-!
Delivery-stream lemmas
-/

/-- The per-channel stream distributes over concatenated outputs. -/
theorem sentTo_append (c : Nat) (xs ys : List (Nat × SMsg)) :
    sentTo c (xs ++ ys) = sentTo c xs ++ sentTo c ys := by
  simp [sentTo, List.filter_append]

/-- A channel outside a broadcast's recipient list receives nothing. -/
theorem sentTo_bAll_of_not_mem {c : Nat} {chans : List Nat} (hc : c ∉ chans)
    (m : SMsg) : sentTo c (bAll chans m) = [] := by
  induction chans with
  | nil => simp [sentTo, bAll]
  | cons a rest ih =>
      simp only [List.mem_cons, not_or] at hc
      have hne : (a == c) = false := by
        simp [Ne.symm hc.1]
      simpa [sentTo, bAll, List.filter_cons, hne] using ih hc.2

/-- A recipient of a duplicate-free broadcast receives the message once. -/
theorem sentTo_bAll_of_mem {c : Nat} {chans : List Nat} (hnd : chans.Nodup)
    (hc : c ∈ chans) (m : SMsg) : sentTo c (bAll chans m) = [m] := by
  induction chans with
  | nil => simp at hc
  | cons a rest ih =>
      rcases List.nodup_cons.mp hnd with ⟨hna, hndr⟩
      rcases List.mem_cons.mp hc with heq | hmem
      · subst heq
        simpa [sentTo, bAll, List.filter_cons] using sentTo_bAll_of_not_mem hna m
      · have hne : (a == c) = false := by
          simp
          rintro rfl
          exact hna hmem
        simpa [sentTo, bAll, List.filter_cons, hne] using ih hndr hmem

/-- A directed send to a different channel delivers nothing here. -/
theorem sentTo_single_ne {c ch : Nat} (h : ch ≠ c) (m : SMsg) :
    sentTo c [(ch, m)] = [] := by
  simp [sentTo, List.filter_cons, h]

/-!
Claim theorems
-/

/-- C2, counterexample: with 200 channels open but zero peers registered, the
next connection attempt is rejected with the server-full error even though the
registered participant count is 0, far below the ceiling — so "rejected only
if the registered count is at or above 200" is false: admission control counts
open sockets, not registered peers. -/
theorem admission_rejects_unregistered :
    (step s200open (Event.connect 200)).2
        = [(200, SMsg.error "Server full. Try again later.")]
      ∧ s200open.connectedUsers.length = 0
      ∧ (step s200open (Event.connect 200)).1 = s200open :=
  ⟨rfl, rfl, rfl⟩

/-- C2, amended: a connection attempt is rejected, with an error reply and
closure and no Registry change, exactly when at least `MAX_CLIENTS = 200`
sockets are already open (the source checks `wss.clients.size > MAX_CLIENTS`
with the new socket already counted), regardless of the registered count; the
`set_username` join handshake itself is never capacity-checked.  In the
scenario where 200 peers are registered on 200 open channels, the 201st
connection is rejected and the Registry stays at exactly 200. -/
theorem admission_checks_channels :
    (∀ (s : HubState) (ch : Nat),
      step s (Event.connect ch)
        = if MAX_CLIENTS ≤ s.openChannels.length then
            (s, [(ch, SMsg.error "Server full. Try again later.")])
          else
            ({ s with openChannels := s.openChannels ++ [ch] },
             [(ch, SMsg.requestUsername),
              (ch, SMsg.userList (userEntries s.connectedUsers))]))
      ∧ (step s200full (Event.connect 200)).2
          = [(200, SMsg.error "Server full. Try again later.")]
      ∧ (step s200full (Event.connect 200)).1.connectedUsers.length = 200 := by
  refine ⟨?_, rfl, rfl⟩
  intro s ch
  simp only [step, onConnect, gt_iff_lt, Nat.lt_succ_iff]

/-- C3, counterexample: in `sHalf` the id "a" is registered to alice on
channel 0; when channel 1's join handshake draws the colliding id "a", the
handler performs no retry and `Map.set` silently replaces alice's Peer record
with bob's — refuting "collision is retried and an existing Peer record is
never silently overwritten". -/
theorem allocation_overwrite_example :
    sHalf.connectedUsers
        = [("a", { userId := "a", username := "alice", ch := 0 })]
      ∧ (step sHalf (Event.message 1 5 (CMsg.setUsername "bob" "a"))).1.connectedUsers
        = [("a", { userId := "a", username := "bob", ch := 1 })] := by
  constructor
  · rfl
  · decide

/-- C3, amended: the id allocator is not collision-checked — whenever the
generated id already has a Peer record, the `set_username` success branch
overwrites that record in place (same key, new value) and the Registry size
does not grow; no retry of the generation occurs. -/
theorem allocation_collision_overwrites (s : HubState) (ch now : Nat)
    (name gen : String) (p : Peer)
    (hch : ch ∈ s.openChannels) (hname : 0 < (jsTrim name).length)
    (hp : mGet gen s.connectedUsers = some p) :
    mGet gen (step s (Event.message ch now (CMsg.setUsername name gen))).1.connectedUsers
        = some { userId := gen, username := jsTrim name, ch := ch }
      ∧ (step s (Event.message ch now (CMsg.setUsername name gen))).1.connectedUsers.length
        = s.connectedUsers.length := by
  have hps : (mGet gen s.connectedUsers).isSome := by simp [hp]
  constructor
  · simp [step, hch, onSetUsername, hname, mGet_mSet_self]
  · simp [step, hch, onSetUsername, hname, mSet_length_of_isSome hps]

/-- C3, witness for `allocation_collision_overwrites` at a concrete input. -/
theorem allocation_collision_overwrites_witness :
    mGet "a" (step sHalf (Event.message 1 5 (CMsg.setUsername "bob" "a"))).1.connectedUsers
        = some { userId := "a", username := "bob", ch := 1 }
      ∧ (step sHalf (Event.message 1 5 (CMsg.setUsername "bob" "a"))).1.connectedUsers.length
        = sHalf.connectedUsers.length :=
  allocation_collision_overwrites sHalf 1 5 "bob" "a"
    { userId := "a", username := "alice", ch := 0 }
    (by decide) (by decide) (by decide)

/-- C5, counterexample: with ids "a" and "b" assigned and empty Link tables,
both sides compute that they should initiate an offer toward the other — the
initiator role is not a tie-breaking function of the id pair, so it is false
that exactly one side initiates. -/
theorem both_sides_initiate_example :
    initiatesCall "a" [] { userId := "b", username := "bob" } = true
      ∧ initiatesCall "b" [] { userId := "a", username := "alice" } = true := by
  decide

/-- C5, amended: the client initiates an offer toward every listed remote id
that differs from its own and is not already linked, whenever its own id is
assigned; this condition is symmetric in the two peers, so two
concurrently-discovering peers both initiate (double-offer glare is possible);
the only per-pair deduplication is that a channel never creates a second Link
for a remote id it already holds. -/
theorem mesh_initiation_symmetric (a b na nb : String) (sa sb : List String)
    (hab : a ≠ b) (ha : a ≠ "") (hb : b ≠ "")
    (hsa : sa.contains b = false) (hsb : sb.contains a = false) :
    initiatesCall a sa { userId := b, username := nb } = true
      ∧ initiatesCall b sb { userId := a, username := na } = true
      ∧ ∀ (selfId : String) (peerIds : List String) (u : RemoteUser),
          peerIds.contains u.userId = true → createsLink selfId peerIds u = false := by
  refine ⟨?_, ?_, ?_⟩
  · have hsa' : b ∉ sa := by simpa using hsa
    simp [initiatesCall, createsLink, bne_iff_ne, Ne.symm hab, ha, hsa']
  · have hsb' : a ∉ sb := by simpa using hsb
    simp [initiatesCall, createsLink, bne_iff_ne, hab, hb, hsb']
  · intro selfId peerIds u hcont
    have hmem : u.userId ∈ peerIds := by simpa using hcont
    simp [createsLink, hmem]

/-- C5, witness for `mesh_initiation_symmetric` at concrete inputs. -/
theorem mesh_initiation_symmetric_witness :
    initiatesCall "a" [] { userId := "b", username := "bob" } = true
      ∧ initiatesCall "b" [] { userId := "a", username := "alice" } = true
      ∧ createsLink "c" ["b"] { userId := "b", username := "bob" } = false :=
  ⟨(mesh_initiation_symmetric "a" "b" "alice" "bob" [] []
      (by decide) (by decide) (by decide) (by decide) (by decide)).1,
   (mesh_initiation_symmetric "a" "b" "alice" "bob" [] []
      (by decide) (by decide) (by decide) (by decide) (by decide)).2.1,
   (mesh_initiation_symmetric "a" "b" "alice" "bob" [] []
      (by decide) (by decide) (by decide) (by decide) (by decide)).2.2
     "c" ["b"] { userId := "b", username := "bob" } (by decide)⟩

/-- C6, counterexample: after six consecutive connection failures of the same
remote peer — past the claimed default bound of five — the failure handler
still schedules another recreation, with the same fixed 1000 ms delay (no
backoff), refuting "once the bound is exceeded no further retry is scheduled
and the Link reaches terminal FAILED". -/
theorem retry_unbounded_example :
    superviseN 6 [("x", "X")] "x" "X"
      = some { delayMs := 1000, userId := "x", username := "X" } := by
  decide

/-- C6, amended: reconnection is unbounded — every connection failure
unconditionally drops the old Link and schedules its recreation after a fixed
1000 ms delay; the client keeps no retry counter, applies no backoff, has no
terminal FAILED state, and emits no persistent-failure event, however many
consecutive failures have occurred. -/
theorem retry_always_scheduled (n : Nat) (ps : List (String × String))
    (uid un : String) :
    superviseN (n + 1) ps uid un
      = some { delayMs := 1000, userId := uid, username := un } := by
  induction n generalizing ps with
  | zero => rfl
  | succ m ih => exact ih _

/-- C7: forwarded signaling envelopes carry the hub-registered identity of the
originating channel.  First, the hub's behaviour does not depend at all on
client-supplied `senderUserId` / `senderUsername` fields: two relay requests
differing only there produce identical state and identical outputs.  Second,
whenever an envelope is actually forwarded, its sender fields are exactly the
registered identity of the sending channel. -/
theorem relay_sender_authoritative (s : HubState) (ch now : Nat)
    (typ : SigType) (tgt payload : String) (su1 sn1 su2 sn2 : Option String) :
    step s (Event.message ch now (CMsg.webrtc typ tgt payload su1 sn1))
        = step s (Event.message ch now (CMsg.webrtc typ tgt payload su2 sn2))
      ∧ ∀ (p : Peer) (sender : ClientInfo),
          mGet tgt s.connectedUsers = some p → p.ch ∈ s.openChannels →
          ch ∈ s.openChannels → mGet ch s.clients = some sender →
          (step s (Event.message ch now (CMsg.webrtc typ tgt payload su1 sn1))).2
            = [(p.ch, SMsg.signal typ tgt payload sender.userId sender.username)] := by
  constructor
  · rfl
  · intro p sender hp hpch hch hsender
    simp [step, hch, onWebrtc, hp, hpch, hsender]

/-- C7, witness: channel 1 (bob) relays an offer to id "a" with spoofed sender
fields; the forwarded message carries bob's registered identity. -/
theorem relay_sender_authoritative_witness :
    (step sPair (Event.message 1 7
        (CMsg.webrtc SigType.offer "a" "sdp" (some "spoof") (some "Mallory")))).2
      = [(0, SMsg.signal SigType.offer "a" "sdp" "b" "bob")] :=
  (relay_sender_authoritative sPair 1 7 SigType.offer "a" "sdp"
      (some "spoof") (some "Mallory") none none).2
    { userId := "a", username := "alice", ch := 0 }
    { username := "bob", userId := "b" }
    (by decide) (by decide) (by decide) (by decide)

/-- C8: relaying an offer, answer or ICE-candidate envelope whose target id
has no Registry record sends nothing to anyone, sends no error to the sender,
and leaves the state unchanged. -/
theorem relay_absent_target_silent (s : HubState) (ch now : Nat)
    (typ : SigType) (tgt payload : String) (su sn : Option String)
    (h : mGet tgt s.connectedUsers = none) :
    step s (Event.message ch now (CMsg.webrtc typ tgt payload su sn)) = (s, []) := by
  by_cases hch : ch ∈ s.openChannels
  · simp [step, hch, onWebrtc, h]
  · simp [step, hch]

/-- C8, witness: an answer relayed to the unknown id "zzz" is dropped. -/
theorem relay_absent_target_silent_witness :
    step sPair (Event.message 0 9 (CMsg.webrtc SigType.answer "zzz" "sdp" none none))
      = (sPair, []) :=
  relay_absent_target_silent sPair 0 9 SigType.answer "zzz" "sdp" none none (by decide)

/-- C10: a chat message from an open channel that never completed the join
handshake is not rejected: the hub broadcasts it to all open channels,
server-stamped with the fallback username "Anonymous" and the current
timestamp. -/
theorem chat_unjoined_anonymous (s : HubState) (ch now : Nat)
    (txt : Option String) (hch : ch ∈ s.openChannels)
    (h : mGet ch s.clients = none) :
    step s (Event.message ch now (CMsg.chat txt))
      = (s, bAll s.openChannels (SMsg.chat "Anonymous" (txt.getD "") now)) := by
  simp [step, hch, onChat, h]

/-- C10, witness: the unregistered channel 1 of `sHalf` sends "hi"; everyone,
the sender included, receives the Anonymous-stamped chat broadcast. -/
theorem chat_unjoined_anonymous_witness :
    step sHalf (Event.message 1 11 (CMsg.chat (some "hi")))
      = (sHalf, [(0, SMsg.chat "Anonymous" "hi" 11), (1, SMsg.chat "Anonymous" "hi" 11)]) :=
  chat_unjoined_anonymous sHalf 1 11 (some "hi") (by decide) (by decide)

/-- C9: when a registered channel's socket closes, the hub drops its Peer
record (and media-state entries) and the remaining channels receive, in this
order, the system depart notice, the refreshed user list (leaver removed), and
the refreshed audio- and video-state lists; the closed channel's registry
entry is gone afterwards. -/
theorem leave_broadcast_order (s : HubState) (ch now : Nat) (info : ClientInfo)
    (h : mGet ch s.clients = some info) :
    step s (Event.close ch now)
        = ({ openChannels := s.openChannels.filter (fun c => c != ch),
             clients := mDel ch s.clients,
             connectedUsers := mDel info.userId s.connectedUsers,
             userAudioStates := mDel info.userId s.userAudioStates,
             userVideoStates := mDel info.userId s.userVideoStates },
           bAll (s.openChannels.filter (fun c => c != ch))
               (SMsg.system (info.username ++ " left the chat.") now)
             ++ bAll (s.openChannels.filter (fun c => c != ch))
                 (SMsg.userList (userEntries (mDel info.userId s.connectedUsers)))
             ++ bAll (s.openChannels.filter (fun c => c != ch))
                 (SMsg.audioStates (mDel info.userId s.userAudioStates))
             ++ bAll (s.openChannels.filter (fun c => c != ch))
                 (SMsg.videoStates (mDel info.userId s.userVideoStates)))
      ∧ mGet info.userId (step s (Event.close ch now)).1.connectedUsers = none := by
  constructor
  · simp [step, onClose, h]
  · simp [step, onClose, h, mGet_mDel_self]

/-- C9, witness: alice's channel 0 closes in `sPair`; bob's channel 1 receives
the depart notice, then the refreshed lists, and alice's record is gone. -/
theorem leave_broadcast_order_witness :
    step sPair (Event.close 0 13)
        = ({ openChannels := [1],
             clients := [(1, { username := "bob", userId := "b" })],
             connectedUsers := [("b", { userId := "b", username := "bob", ch := 1 })],
             userAudioStates := [], userVideoStates := [("b", false)] },
           [(1, SMsg.system "alice left the chat." 13),
            (1, SMsg.userList [("b", "bob")]),
            (1, SMsg.audioStates []),
            (1, SMsg.videoStates [("b", false)])])
      ∧ mGet "a" (step sPair (Event.close 0 13)).1.connectedUsers = none :=
  leave_broadcast_order sPair 0 13 { username := "alice", userId := "a" } (by decide)

/-- C4: a successful join emits, in order, `username_accepted` to the joiner
only, the system joined notice to every open channel except the joiner, the
`user_list` (now containing the new id) to every open channel including the
joiner, and then the media-state lists; consequently every channel other than
the joiner receives no message mentioning the new id before the `user_list`
entry confirming its existence (the only earlier message it receives is the
system notice, which carries no id). -/
theorem join_message_order (s : HubState) (ch now : Nat) (name gen : String)
    (hnd : s.openChannels.Nodup) (hch : ch ∈ s.openChannels)
    (hname : 0 < (jsTrim name).length) :
    (step s (Event.message ch now (CMsg.setUsername name gen))).2
        = [(ch, SMsg.usernameAccepted (jsTrim name) gen)]
          ++ bExcept s.openChannels ch
               (SMsg.system (jsTrim name ++ " joined the chat.") now)
          ++ bAll s.openChannels (SMsg.userList (userEntries
               (mSet gen { userId := gen, username := jsTrim name, ch := ch }
                 s.connectedUsers)))
          ++ bAll s.openChannels (SMsg.audioStates s.userAudioStates)
          ++ bAll s.openChannels (SMsg.videoStates s.userVideoStates)
      ∧ (∀ c, c ∈ s.openChannels → c ≠ ch →
          sentTo c (step s (Event.message ch now (CMsg.setUsername name gen))).2
            = [SMsg.system (jsTrim name ++ " joined the chat.") now,
               SMsg.userList (userEntries
                 (mSet gen { userId := gen, username := jsTrim name, ch := ch }
                   s.connectedUsers)),
               SMsg.audioStates s.userAudioStates,
               SMsg.videoStates s.userVideoStates])
      ∧ (∀ c, c ∈ s.openChannels → c ≠ ch →
          ∀ m ∈ beforeFirstUserList
              (sentTo c (step s (Event.message ch now (CMsg.setUsername name gen))).2),
            mentionsId gen m = false) := by
  have hout : (step s (Event.message ch now (CMsg.setUsername name gen))).2
      = [(ch, SMsg.usernameAccepted (jsTrim name) gen)]
        ++ bExcept s.openChannels ch
             (SMsg.system (jsTrim name ++ " joined the chat.") now)
        ++ bAll s.openChannels (SMsg.userList (userEntries
             (mSet gen { userId := gen, username := jsTrim name, ch := ch }
               s.connectedUsers)))
        ++ bAll s.openChannels (SMsg.audioStates s.userAudioStates)
        ++ bAll s.openChannels (SMsg.videoStates s.userVideoStates) := by
    simp [step, hch, onSetUsername, hname, sendTo]
  have hsent : ∀ c, c ∈ s.openChannels → c ≠ ch →
      sentTo c (step s (Event.message ch now (CMsg.setUsername name gen))).2
        = [SMsg.system (jsTrim name ++ " joined the chat.") now,
           SMsg.userList (userEntries
             (mSet gen { userId := gen, username := jsTrim name, ch := ch }
               s.connectedUsers)),
           SMsg.audioStates s.userAudioStates,
           SMsg.videoStates s.userVideoStates] := by
    intro c hc hcne
    have hcf : c ∈ s.openChannels.filter (fun x => x != ch) :=
      List.mem_filter.mpr ⟨hc, by simp [hcne]⟩
    have hndf : (s.openChannels.filter (fun x => x != ch)).Nodup :=
      List.Nodup.filter _ hnd
    rw [hout, sentTo_append, sentTo_append, sentTo_append, sentTo_append,
      sentTo_single_ne (Ne.symm hcne), bExcept,
      sentTo_bAll_of_mem hndf hcf,
      sentTo_bAll_of_mem hnd hc, sentTo_bAll_of_mem hnd hc,
      sentTo_bAll_of_mem hnd hc]
    rfl
  refine ⟨hout, hsent, ?_⟩
  intro c hc hcne m hm
  rw [hsent c hc hcne] at hm
  simp [beforeFirstUserList, isUserList, List.takeWhile] at hm
  subst hm
  rfl

/-- C4, witness: channel 1 of `sHalf` joins as "bob" with id "b"; channel 0
receives the system notice, then the refreshed user list, then the media
state lists. -/
theorem join_message_order_witness :
    sentTo 0 (step sHalf (Event.message 1 21 (CMsg.setUsername "bob" "b"))).2
        = [SMsg.system "bob joined the chat." 21,
           SMsg.userList [("a", "alice"), ("b", "bob")],
           SMsg.audioStates [], SMsg.videoStates []] :=
  (join_message_order sHalf 1 21 "bob" "b" (by decide) (by decide) (by decide)).2.1
    0 (by decide) (by decide)

/-!
Invariant for the Registry / joined-set correspondence (claim C1)
-/

/-- Deleting an absent key is the identity. -/
theorem mDel_of_mGet_none {α β : Type} [DecidableEq α] {k : α}
    {l : List (α × β)} (h : mGet k l = none) : mDel k l = l := by
  induction l with
  | nil => rfl
  | cons kv rest ih =>
      obtain ⟨a, b⟩ := kv
      by_cases ha : a = k
      · subst ha; simp [mGet] at h
      · simp [mGet, ha] at h
        simp [mDel, List.filter_cons, ha] at ih ⊢
        exact ih h

/-- Membership in `insertNew`. -/
theorem mem_insertNew {x ch : Nat} {l : List Nat} :
    x ∈ insertNew ch l ↔ x ∈ l ∨ x = ch := by
  by_cases h : ch ∈ l
  · simp only [insertNew, if_pos h]
    constructor
    · exact Or.inl
    · rintro (hx | rfl)
      · exact hx
      · exact h
  · simp [insertNew, if_neg h]

/-- The relay handler never changes the state. -/
theorem onWebrtc_state (s : HubState) (ch : Nat) (typ : SigType)
    (tgt payload : String) (su sn : Option String) :
    (onWebrtc s ch typ tgt payload su sn).1 = s := by
  cases hmg : mGet tgt s.connectedUsers with
  | none => simp [onWebrtc, hmg]
  | some tu =>
      by_cases hc : tu.ch ∈ s.openChannels
      · cases hmc : mGet ch s.clients <;> simp [onWebrtc, hmg, hc, hmc]
      · simp [onWebrtc, hmg, hc]

/-- The audio-state handler changes neither `clients` nor the Registry. -/
theorem onAudioToggle_frame (s : HubState) (ch : Nat) (b : Bool) :
    (onAudioToggle s ch b).1.clients = s.clients
      ∧ (onAudioToggle s ch b).1.connectedUsers = s.connectedUsers := by
  cases hmc : mGet ch s.clients <;> simp [onAudioToggle, hmc]

/-- The video-state handler changes neither `clients` nor the Registry. -/
theorem onVideoToggle_frame (s : HubState) (ch : Nat) (b : Bool) :
    (onVideoToggle s ch b).1.clients = s.clients
      ∧ (onVideoToggle s ch b).1.connectedUsers = s.connectedUsers := by
  cases hmc : mGet ch s.clients <;> simp [onVideoToggle, hmc]

/-- The invariant is stable under steps that change neither `clients`, nor the
Registry, nor (up to membership) the joined set. -/
theorem inv_frame {s s' : HubState} {acc acc' : List Nat} (hinv : Inv s acc)
    (hc : s'.clients = s.clients) (hcu : s'.connectedUsers = s.connectedUsers)
    (hacc : ∀ x, x ∈ acc' ↔ x ∈ acc) : Inv s' acc' := by
  obtain ⟨inv1, inv2, inv3, inv4⟩ := hinv
  refine ⟨?_, ?_, ?_, ?_⟩
  · intro uid p h
    rw [hcu] at h
    rw [hc]
    exact inv1 uid p h
  · intro ch info h
    rw [hc] at h
    rw [hcu]
    exact inv2 ch info h
  · intro ch
    rw [hc]
    exact (hacc ch).trans (inv3 ch)
  · rw [hcu]
    exact inv4

/-- One well-formed step preserves the invariant. -/
theorem inv_preserved {s : HubState} {acc : List Nat} {e : Event}
    (hinv : Inv s acc) (hwf : WFe s e = true) :
    Inv (step s e).1 (joinedStep s e acc) := by
  cases e with
  | connect ch =>
      by_cases hcap : s.openChannels.length + 1 > MAX_CLIENTS
      · exact inv_frame hinv (by simp [step, onConnect, hcap])
          (by simp [step, onConnect, hcap]) (fun x => by simp [joinedStep])
      · exact inv_frame hinv (by simp [step, onConnect, hcap])
          (by simp [step, onConnect, hcap]) (fun x => by simp [joinedStep])
  | close ch now =>
      cases hmc : mGet ch s.clients with
      | none =>
          refine inv_frame hinv (by simp [step, onClose, hmc, mDel_of_mGet_none hmc])
            (by simp [step, onClose, hmc]) ?_
          intro x
          by_cases hx : x = ch
          · subst hx
            have hxn : x ∉ acc := by
              intro hmem
              have := (hinv.2.2.1 x).mp hmem
              rw [hmc] at this
              simp at this
            simp [joinedStep, List.mem_filter, hxn]
          · simp [joinedStep, List.mem_filter, hx, bne_iff_ne]
      | some info =>
          obtain ⟨inv1, inv2, inv3, inv4⟩ := hinv
          have hcu' := inv2 ch info hmc
          refine ⟨?_, ?_, ?_, ?_⟩
          · intro uid p hp
            simp only [step, onClose, hmc] at hp ⊢
            by_cases huid : uid = info.userId
            · subst huid
              rw [mGet_mDel_self] at hp
              exact absurd hp (by simp)
            · rw [mGet_mDel_ne huid] at hp
              obtain ⟨hpid, hpc⟩ := inv1 uid p hp
              refine ⟨hpid, ?_⟩
              have hpch : p.ch ≠ ch := by
                intro hb
                rw [hb, hmc] at hpc
                have hinfo : info = { username := p.username, userId := uid } :=
                  Option.some.inj hpc
                exact huid (by rw [hinfo])
              rw [mGet_mDel_ne hpch]
              exact hpc
          · intro c info' h
            simp only [step, onClose, hmc] at h ⊢
            by_cases hc : c = ch
            · subst hc
              rw [mGet_mDel_self] at h
              exact absurd h (by simp)
            · rw [mGet_mDel_ne hc] at h
              have h2 := inv2 c info' h
              have hne : info'.userId ≠ info.userId := by
                intro he
                rw [he] at h2
                have hrec := Option.some.inj (h2.symm.trans hcu')
                exact hc (congrArg Peer.ch hrec)
              rw [mGet_mDel_ne hne]
              exact h2
          · intro x
            simp only [step, onClose, hmc, joinedStep]
            by_cases hx : x = ch
            · subst hx
              simp [List.mem_filter, mGet_mDel_self]
            · rw [mGet_mDel_ne hx]
              simp only [List.mem_filter, bne_iff_ne]
              constructor
              · intro hmem
                exact (inv3 x).mp hmem.1
              · intro hsome
                exact ⟨(inv3 x).mpr hsome, by simp [hx]⟩
          · simp only [step, onClose, hmc]
            exact keys_nodup_mDel _ inv4
  | message ch now d =>
      by_cases hopen : ch ∈ s.openChannels
      · cases d with
        | setUsername name gen =>
            simp only [WFe, Bool.and_eq_true, Option.isNone_iff_eq_none] at hwf
            obtain ⟨hcl, hcu⟩ := hwf
            by_cases hval : 0 < (jsTrim name).length
            · obtain ⟨inv1, inv2, inv3, inv4⟩ := hinv
              refine ⟨?_, ?_, ?_, ?_⟩
              · intro uid p hp
                simp only [step, if_pos hopen, onSetUsername, if_pos hval] at hp ⊢
                by_cases huid : uid = gen
                · subst huid
                  rw [mGet_mSet_self] at hp
                  have hp' := Option.some.inj hp
                  subst hp'
                  exact ⟨rfl, by rw [mGet_mSet_self]⟩
                · rw [mGet_mSet_ne huid] at hp
                  obtain ⟨hpid, hpc⟩ := inv1 uid p hp
                  refine ⟨hpid, ?_⟩
                  have hpch : p.ch ≠ ch := by
                    intro hb
                    rw [hb, hcl] at hpc
                    simp at hpc
                  rw [mGet_mSet_ne hpch]
                  exact hpc
              · intro c info h
                simp only [step, if_pos hopen, onSetUsername, if_pos hval] at h ⊢
                by_cases hc : c = ch
                · subst hc
                  rw [mGet_mSet_self] at h
                  have h' := Option.some.inj h
                  subst h'
                  simp [mGet_mSet_self]
                · rw [mGet_mSet_ne hc] at h
                  have h2 := inv2 c info h
                  have hne : info.userId ≠ gen := by
                    intro hb
                    rw [hb, hcu] at h2
                    simp at h2
                  rw [mGet_mSet_ne hne]
                  exact h2
              · intro x
                have hcond : ch ∈ s.openChannels ∧ 0 < (jsTrim name).length :=
                  ⟨hopen, hval⟩
                simp only [step, if_pos hopen, onSetUsername, if_pos hval,
                  joinedStep, if_pos hcond]
                by_cases hx : x = ch
                · subst hx
                  simp [mem_insertNew, mGet_mSet_self]
                · rw [mGet_mSet_ne hx]
                  simp only [mem_insertNew, hx, or_false]
                  exact inv3 x
              · simp only [step, if_pos hopen, onSetUsername, if_pos hval]
                rw [mSet_eq_append hcu]
                have hg : gen ∉ s.connectedUsers.map Prod.fst :=
                  not_mem_keys_of_mGet_none hcu
                simp only [List.map_append, List.nodup_append]
                refine ⟨inv4, by simp, ?_⟩
                intro a ha hag
                simp only [List.map_cons, List.map_nil, List.mem_singleton] at hag
                subst hag
                exact hg ha
            · refine inv_frame hinv
                (by simp [step, hopen, onSetUsername, hval])
                (by simp [step, hopen, onSetUsername, hval]) ?_
              intro x
              simp [joinedStep, hval]
        | chat txt =>
            exact inv_frame hinv (by simp [step, hopen, onChat])
              (by simp [step, hopen, onChat]) (fun x => by simp [joinedStep])
        | audioEnabled =>
            exact inv_frame hinv
              (by simpa [step, hopen] using (onAudioToggle_frame s ch true).1)
              (by simpa [step, hopen] using (onAudioToggle_frame s ch true).2)
              (fun x => by simp [joinedStep])
        | audioDisabled =>
            exact inv_frame hinv
              (by simpa [step, hopen] using (onAudioToggle_frame s ch false).1)
              (by simpa [step, hopen] using (onAudioToggle_frame s ch false).2)
              (fun x => by simp [joinedStep])
        | videoEnabled =>
            exact inv_frame hinv
              (by simpa [step, hopen] using (onVideoToggle_frame s ch true).1)
              (by simpa [step, hopen] using (onVideoToggle_frame s ch true).2)
              (fun x => by simp [joinedStep])
        | videoDisabled =>
            exact inv_frame hinv
              (by simpa [step, hopen] using (onVideoToggle_frame s ch false).1)
              (by simpa [step, hopen] using (onVideoToggle_frame s ch false).2)
              (fun x => by simp [joinedStep])
        | webrtc typ tgt payload su sn =>
            exact inv_frame hinv
              (by simp [step, hopen, onWebrtc_state s ch typ tgt payload su sn])
              (by simp [step, hopen, onWebrtc_state s ch typ tgt payload su sn])
              (fun x => by simp [joinedStep])
        | badJson =>
            exact inv_frame hinv (by simp [step, hopen])
              (by simp [step, hopen]) (fun x => by simp [joinedStep])
        | unknown =>
            exact inv_frame hinv (by simp [step, hopen])
              (by simp [step, hopen]) (fun x => by simp [joinedStep])
      · refine inv_frame hinv (by simp [step, hopen]) (by simp [step, hopen]) ?_
        intro x
        cases d <;> simp [joinedStep, hopen]

/-- Under the invariant, the Registry's record channels are exactly the
joined set. -/
theorem inv_bij {s : HubState} {acc : List Nat} (hinv : Inv s acc) :
    ∀ x, x ∈ registryChannels s ↔ x ∈ acc := by
  obtain ⟨inv1, inv2, inv3, inv4⟩ := hinv
  intro x
  constructor
  · intro hx
    rcases List.mem_map.mp hx with ⟨⟨uid, p⟩, hmem, hchx⟩
    simp only at hchx
    have hget : mGet uid s.connectedUsers = some p := mGet_of_mem_nodup inv4 hmem
    obtain ⟨hpid, hpc⟩ := inv1 uid p hget
    refine (inv3 x).mpr ?_
    rw [← hchx, hpc]
    rfl
  · intro hx
    have hsome := (inv3 x).mp hx
    obtain ⟨info, hinfo⟩ := Option.isSome_iff_exists.mp hsome
    have h2 := inv2 x info hinfo
    have hmem := mem_of_mGet_eq_some h2
    exact List.mem_map.mpr
      ⟨(info.userId,
        { userId := info.userId, username := info.username, ch := x }), hmem, rfl⟩

/-- Running a well-formed trace from an invariant state keeps the Registry's
channels equal to the joined set. -/
theorem inv_run : ∀ (t : List Event) (s : HubState) (acc : List Nat),
    Inv s acc → WFb s t = true →
    ∀ x, x ∈ registryChannels (run s t) ↔ x ∈ joinedAfter s t acc := by
  intro t
  induction t with
  | nil =>
      intro s acc hinv _ x
      exact inv_bij hinv x
  | cons e rest ih =>
      intro s acc hinv hwf x
      simp only [WFb, Bool.and_eq_true] at hwf
      exact ih (step s e).1 (joinedStep s e acc)
        (inv_preserved hinv hwf.1) hwf.2 x

/-- C1, counterexample: channel 0 completes the join handshake twice (ids
"i1" then "i2") and disconnects; afterwards the handshake-and-still-connected
set is empty, yet the Registry still holds the stale record for "i1" on
channel 0 — the close handler only deletes the channel's latest id, so the
claimed equality of the Registry's peer set with the joined channel set
fails. -/
theorem registry_stale_after_rejoin :
    registryChannels (run hubInit rejoinTrace) = [0]
      ∧ joinedAfter hubInit rejoinTrace [] = []
      ∧ (run hubInit rejoinTrace).connectedUsers
        = [("i1", { userId := "i1", username := "alice", ch := 0 })] := by
  refine ⟨by decide, by decide, by decide⟩

/-- C1, amended: for traces in which every `set_username` arrives on a channel
that has not already completed the handshake and every generated id is fresh
(no allocation collision), the Registry's peer set — each record identified by
its channel — equals, at the end of the trace (hence, applying the theorem to
any prefix, at every observation point), exactly the set of channels that
completed the join handshake and have not since disconnected.  Without those
hypotheses the equality fails (see the counterexample): a repeated handshake
leaves a stale record after disconnect. -/
theorem registry_matches_joined (t : List Event) (hwf : WFb hubInit t = true) :
    ∀ x, x ∈ registryChannels (run hubInit t) ↔ x ∈ joinedAfter hubInit t [] := by
  refine inv_run t hubInit [] ⟨?_, ?_, ?_, ?_⟩ hwf
  · intro uid p h
    simp [hubInit, mGet] at h
  · intro c info h
    simp [hubInit, mGet] at h
  · intro c
    simp [hubInit, mGet]
  · simp [hubInit]

/-- C1, witness for `registry_matches_joined` on the concrete well-formed
trace `okTrace`: after alice joins, bob joins and alice leaves, channel 1 is
registered and joined, channel 0 is neither. -/
theorem registry_matches_joined_witness :
    WFb hubInit okTrace = true
      ∧ (1 ∈ registryChannels (run hubInit okTrace) ↔ 1 ∈ joinedAfter hubInit okTrace [])
      ∧ (0 ∈ registryChannels (run hubInit okTrace) ↔ 0 ∈ joinedAfter hubInit okTrace []) :=
  ⟨by decide,
   registry_matches_joined okTrace (by decide) 1,
   registry_matches_joined okTrace (by decide) 0⟩
